import Mathlib

/-!
Shallow embedding of the TYSA announcement pipeline (`src/tysa.py`) and
verification of the specified properties.

Conventions of the embedding:
* Python strings are Lean `String`s (lists of characters).  Character classes
  of Python's `re` module (`\w`, `\s`) and `str.lower`/`str.strip` are modelled
  on their ASCII fragments, which covers the character set the specification
  talks about (`[A-Za-z0-9_- ]`).
* External effects (the Spotify query, the OpenAI chat call, the ElevenLabs
  synthesis call, file existence, playback) are passed in as explicit oracle
  values; the functions additionally report which collaborators they invoked,
  so that "no external call is made" is an observable proposition.
* Python `dict` caches are association lists looked up from the front;
  `dict[k] = v` is modelled by consing `(k, v)`.
-/

namespace Tysa

/-! ### Character classes and Python string helpers (ASCII fragments) -/

/-- ASCII fragment of Python's `\s` character class (`re` module):
space, tab, newline, carriage return, vertical tab, form feed. -/
def isSpaceChar (c : Char) : Bool :=
  c = ' ' || c = '\t' || c = '\n' || c = '\r' || c = '\x0b' || c = '\x0c'

/-- ASCII fragment of Python's `\w` character class: letters, digits and
underscore. -/
def isWordChar (c : Char) : Bool :=
  c.isAlphanum || c = '_'

/-- Remove the longest trailing run of characters satisfying `p`
(the right half of Python's `str.strip`). -/
def dropTrailingWhile (p : Char → Bool) : List Char → List Char
  | [] => []
  | c :: cs =>
    match dropTrailingWhile p cs with
    | [] => if p c then [] else [c]
    | rest => c :: rest

/-- Python's `str.strip(chars)` on a character list: remove leading and
trailing characters satisfying `p`. -/
def pyStrip (p : Char → Bool) (l : List Char) : List Char :=
  dropTrailingWhile p (l.dropWhile p)

/-- Python's `str.strip()` (no argument): strip surrounding whitespace. -/
def pyStripWs (s : String) : String :=
  String.mk (pyStrip isSpaceChar s.data)

/-- Replace every maximal run of characters satisfying `p` by the single
character `r` (Python's `re.sub(p+, r, ·)`).  The boolean argument records
whether the previously emitted input character was part of a run. -/
def collapseRuns (p : Char → Bool) (r : Char) : Bool → List Char → List Char
  | _, [] => []
  | inRun, c :: cs =>
    if p c then
      if inRun then collapseRuns p r true cs
      else r :: collapseRuns p r true cs
    else
      c :: collapseRuns p r false cs

/-! ### The filename sanitizer (`_sanitize_filename`, tysa.py lines 116-122) -/

/-- Characters kept by the first substitution `re.sub(r'[^\w\s-]', '', text)`:
word characters, whitespace and hyphen. -/
def keepChar (c : Char) : Bool :=
  isWordChar c || isSpaceChar c || c = '-'

/-- `_sanitize_filename` from tysa.py:
`re.sub(r'[^\w\s-]', '', ·)` then `re.sub(r'[\s]+', '_', ·)` then
`re.sub(r'_+', '_', ·)` then `.strip('_')`. -/
def sanitize_filename (s : String) : String :=
  let l1 := s.data.filter keepChar
  let l2 := collapseRuns isSpaceChar '_' false l1
  let l3 := collapseRuns (fun c => c = '_') '_' false l2
  String.mk (pyStrip (fun c => c = '_') l3)

/-- Modelled from the words of claim C3 (for comparison with the code's
`sanitize_filename`): remove exactly the characters outside
`[A-Za-z0-9_- ]` (space included), collapse every remaining whitespace run
to a single underscore, and strip leading and trailing underscores. -/
def sanitizeSpecClaim (s : String) : String :=
  let l1 := s.data.filter (fun c => c.isAlphanum || c = '_' || c = '-' || c = ' ')
  let l2 := collapseRuns isSpaceChar '_' false l1
  String.mk (pyStrip (fun c => c = '_') l2)

/-! ### Environment and configuration (`__init__` lines 42-63, `_validate_env_vars`) -/

/-- The environment variables the modelled code reads.  `none` models an unset
variable; `some ""` a variable set to the empty string (`os.getenv` returns
the empty string then, but Python truthiness treats both as missing). -/
structure Env where
  elevenlabsApiKey : Option String
  openaiApiKey : Option String
  modeVar : Option String
  languageCodeVar : Option String
  nowPlayingTextVar : Option String
  byTextVar : Option String
  outputDirVar : Option String

/-- `os.getenv(var, default)`: the default is used only when the variable is
unset. -/
def getenvD (v : Option String) (d : String) : String :=
  v.getD d

/-- Python truthiness test `not os.getenv(var)`: unset or empty. -/
def isMissing (v : Option String) : Bool :=
  match v with
  | none => true
  | some s => s = ""

/-- Python's `str.lower()` (ASCII fragment), character by character. -/
def pyLower (s : String) : String :=
  String.mk (s.data.map Char.toLower)

/-- `os.getenv('MODE', 'smart').lower()` — the raw mode string, as read both
by `_validate_env_vars` (line 106) and by `__init__` (line 42). -/
def rawMode (env : Env) : String :=
  pyLower (getenvD env.modeVar "smart")

/-- The mode the process actually runs in (`__init__` lines 42-45): the raw
mode when it is one of `basic`/`smart`/`wizard`, otherwise `smart`. -/
def effectiveMode (env : Env) : String :=
  let m := rawMode env
  if m = "basic" ∨ m = "smart" ∨ m = "wizard" then m else "smart"

/-- `os.getenv(name)` against the modelled environment. -/
def getenvVar (env : Env) (name : String) : Option String :=
  if name = "ELEVENLABS_API_KEY" then env.elevenlabsApiKey
  else if name = "OPENAI_API_KEY" then env.openaiApiKey
  else if name = "MODE" then env.modeVar
  else none

/-- The `required_vars` list built by `_validate_env_vars` (lines 103-108). -/
def requiredVars (env : Env) : List String :=
  "ELEVENLABS_API_KEY" ::
    (if rawMode env = "smart" ∨ rawMode env = "wizard" then ["OPENAI_API_KEY"] else [])

/-- `missing_vars` (line 110): the required variables that are unset or
empty. -/
def missingVars (env : Env) : List String :=
  (requiredVars env).filter (fun v => isMissing (getenvVar env v))

/-- `_validate_env_vars` (lines 101-114): raises `ValueError` (here
`Except.error`) exactly when some required variable is missing.  `__init__`
calls it first, and `main` turns the exception into `sys.exit(1)`, so an
error here means the process does not start. -/
def validate_env_vars (env : Env) : Except String Unit :=
  if missingVars env = [] then Except.ok ()
  else Except.error "Missing required environment variables"

/-- The configuration fields of `SpotifyAnnouncer` used by the modelled
pipeline.  `openaiClientInit` records whether `self.openai_client` is a
client object (smart/wizard) or `None` (basic), per lines 57-61. -/
structure Config where
  mode : String
  languageCode : String
  nowPlayingText : String
  byText : String
  outputDir : String
  openaiClientInit : Bool

/-- Construction of the configuration in `__init__` (lines 42-61), with the
documented environment-variable defaults. -/
def mkConfig (env : Env) : Config :=
  ⟨effectiveMode env,
   getenvD env.languageCodeVar "en",
   getenvD env.nowPlayingTextVar "Now playing",
   getenvD env.byTextVar "by",
   getenvD env.outputDirVar "output",
   effectiveMode env = "smart" || effectiveMode env = "wizard"⟩

/-! ### Track source adapter (`get_current_track`, lines 124-160) -/

/-- Split a character list at the first `'|'` (Python `split('|', 1)` when a
`'|'` is present): returns the part before and the part after it. -/
def splitOnce : List Char → List Char × List Char
  | [] => ([], [])
  | c :: cs =>
    if c = '|' then ([], cs)
    else (c :: (splitOnce cs).1, (splitOnce cs).2)

/-- `get_current_track`, given the AppleScript subprocess outcome as an
oracle: `none` models a timeout or subprocess error (both swallowed), and
`some (rc, stdout)` a completed run.  Returns the `(song, artist)` snapshot
or `none`. -/
def get_current_track (result : Option (Int × String)) : Option (String × String) :=
  match result with
  | none => none
  | some (rc, stdout) =>
    if rc = 0 ∧ pyStripWs stdout ≠ "" then
      let output := pyStripWs stdout
      if output.data.contains '|' then
        let r := splitOnce output.data
        some (pyStripWs (String.mk r.1), pyStripWs (String.mk r.2))
      else none
    else none

/-- `track_identifier = f"{song}|{artist}"` (line 342), the identity used by
the change detector. -/
def trackIdentifier (song artist : String) : String :=
  song ++ "|" ++ artist

/-! ### Announcement generator (`generate_announcement`, lines 162-266) -/

/-- Outcome of the OpenAI chat call: `ok c` models a response whose
`choices[0].message.content` is `c` (`none` = Python `None`), `exn` any
exception raised by the call or while reading the response. -/
inductive GptOutcome where
  | ok : Option String → GptOutcome
  | exn : GptOutcome

/-- An announcement cache (`self.gpt_cache`): a string-keyed dictionary. -/
def Cache := List (String × String)

/-- Dictionary lookup (`cache_key in self.gpt_cache` / `self.gpt_cache[k]`). -/
def cacheLookup (c : Cache) (k : String) : Option String :=
  match c with
  | [] => none
  | (k', v) :: rest => if k' = k then some v else cacheLookup rest k

/-- Dictionary store `self.gpt_cache[k] = v`. -/
def cacheInsert (c : Cache) (k v : String) : Cache :=
  (k, v) :: c

/-- `cache_key = f"{song}|{artist}|{self.language_code}|{self.mode}"`
(line 183). -/
def cacheKey (song artist languageCode mode : String) : String :=
  song ++ "|" ++ artist ++ "|" ++ languageCode ++ "|" ++ mode

/-- The fixed fallback announcement `f"Now playing: {song} - by - {artist}"`
(lines 181, 252, 266). -/
def fallbackAnnouncement (song artist : String) : String :=
  "Now playing: " ++ song ++ " - by - " ++ artist

/-- The basic-mode template
`f"{self.now_playing_text}: {song} - {self.by_text} - {artist}"` (line 176). -/
def basicAnnouncement (cfg : Config) (song artist : String) : String :=
  cfg.nowPlayingText ++ ": " ++ song ++ " - " ++ cfg.byText ++ " - " ++ artist

/-- Result of one `generate_announcement` call: the returned string, the
cache afterwards, and which effects happened (`cacheRead`: the cache was
consulted; `apiCalled`: the OpenAI call was issued; `saveCalled`:
`_save_gpt_cache` was invoked). -/
structure GenResult where
  announcement : String
  cache : Cache
  cacheRead : Bool
  apiCalled : Bool
  saveCalled : Bool

/-- `generate_announcement` (lines 162-266), with the OpenAI call outcome as
an oracle. -/
def generate_announcement (cfg : Config) (cache : Cache) (song artist : String)
    (gpt : GptOutcome) : GenResult :=
  if cfg.mode = "basic" then
    ⟨basicAnnouncement cfg song artist, cache, false, false, false⟩
  else if cfg.openaiClientInit = false then
    ⟨fallbackAnnouncement song artist, cache, false, false, false⟩
  else
    let key := cacheKey song artist cfg.languageCode cfg.mode
    match cacheLookup cache key with
    | some cached => ⟨cached, cache, true, false, false⟩
    | none =>
      match gpt with
      | GptOutcome.exn => ⟨fallbackAnnouncement song artist, cache, true, true, false⟩
      | GptOutcome.ok none => ⟨fallbackAnnouncement song artist, cache, true, true, false⟩
      | GptOutcome.ok (some content) =>
        if content = "" then
          ⟨fallbackAnnouncement song artist, cache, true, true, false⟩
        else
          let announcement := pyStripWs content
          ⟨announcement, cacheInsert cache key announcement, true, true, true⟩

/-! ### Speech synthesis and per-track processing (lines 289-378) -/

/-- `generate_speech` (lines 289-328), with the ElevenLabs result as an
oracle: `none` models an exception, `some bytes` the joined audio chunks
(empty = failure).  On success the audio is written to
`os.path.join(output_dir, output_filename)` and that path returned. -/
def generate_speech (outputDir filename : String) (audio : Option (List Nat)) :
    Option String :=
  match audio with
  | none => none
  | some data => if data = [] then none else some (outputDir ++ "/" ++ filename)

/-- Whether the modelled ElevenLabs outcome counts as a successful synthesis. -/
def synthSucceeds (audio : Option (List Nat)) : Bool :=
  match audio with
  | none => false
  | some data => decide (data ≠ [])

/-- `filename = f"{self.mode}_{self.language_code}_{safe_artist}_{safe_title}.mp3"`
(lines 360-363). -/
def mkFilename (cfg : Config) (artist song : String) : String :=
  cfg.mode ++ "_" ++ cfg.languageCode ++ "_" ++ sanitize_filename artist ++ "_"
    ++ sanitize_filename song ++ ".mp3"

/-- Oracle inputs consumed by one `process_current_track` call. -/
structure ProcOracle where
  track : Option (String × String)
  gpt : GptOutcome
  fileExists : Bool
  audio : Option (List Nat)

/-- Result of one `process_current_track` call: the state afterwards
(`lastTrack`, `cache`), the boolean return value, and which collaborators
were invoked (`synthCalled`: the ElevenLabs call was issued; `played`: the
path handed to `_play_audio`, if any). -/
structure ProcResult where
  lastTrack : Option String
  cache : Cache
  processed : Bool
  apiCalled : Bool
  saveCalled : Bool
  synthCalled : Bool
  played : Option String

/-- `process_current_track` (lines 330-378).  `lastTrack` and `cache` are the
mutable `self.last_track` / `self.gpt_cache` before the call.  Playback
failures do not change the return value, so `_play_audio`'s outcome needs no
oracle. -/
def process_current_track (cfg : Config) (lastTrack : Option String) (cache : Cache)
    (o : ProcOracle) : ProcResult :=
  match o.track with
  | none => ⟨lastTrack, cache, false, false, false, false, none⟩
  | some (song, artist) =>
    let id := trackIdentifier song artist
    if some id = lastTrack then
      ⟨lastTrack, cache, false, false, false, false, none⟩
    else
      let g := generate_announcement cfg cache song artist o.gpt
      let filename := mkFilename cfg artist song
      let path := cfg.outputDir ++ "/" ++ filename
      if o.fileExists then
        ⟨some id, g.cache, true, g.apiCalled, g.saveCalled, false, some path⟩
      else
        match generate_speech cfg.outputDir filename o.audio with
        | some audioPath =>
          ⟨some id, g.cache, true, g.apiCalled, g.saveCalled, true, some audioPath⟩
        | none =>
          ⟨some id, g.cache, false, g.apiCalled, g.saveCalled, true, none⟩

/-! ### The continuous loop (`run_continuous`, lines 380-394) -/

/-- What one iteration of the polling loop (one `process_current_track` plus
the sleep) does: completes normally, raises `KeyboardInterrupt`, or raises
any other exception. -/
inductive IterOutcome where
  | ok : IterOutcome
  | interrupt : IterOutcome
  | err : IterOutcome
deriving DecidableEq

/-- How `run_continuous` ends: `graceful` = the `except KeyboardInterrupt`
branch logged and returned; `propagated` = the `except Exception` branch
logged and re-raised, so the exception left `run_continuous`; `fuelOut` = the
supplied trace ran out while the loop was still going. -/
inductive LoopExit where
  | graceful : LoopExit
  | propagated : LoopExit
  | fuelOut : LoopExit
deriving DecidableEq

/-- `run_continuous` (lines 380-394) driven by a finite trace of iteration
outcomes: returns how many iterations started and how the loop ended.  The
`try` wraps the whole `while True`, so the first non-`ok` outcome ends the
loop. -/
def run_continuous : List IterOutcome → Nat × LoopExit
  | [] => (0, LoopExit.fuelOut)
  | IterOutcome.ok :: rest =>
    let r := run_continuous rest
    (r.1 + 1, r.2)
  | IterOutcome.interrupt :: _ => (1, LoopExit.graceful)
  | IterOutcome.err :: _ => (1, LoopExit.propagated)

/-- Decidable check that a character list has no two adjacent underscores. -/
def noAdjU : List Char → Bool
  | [] => true
  | [_] => true
  | a :: b :: cs => (!(a == '_' && b == '_')) && noAdjU (b :: cs)

/-! ### Concrete environments used as instantiation inputs -/

/-- An environment selecting basic mode with only the ElevenLabs key set. -/
def envBasic : Env := ⟨some "elevenlabs-key", none, some "basic", none, none, none, none⟩

/-- An environment selecting smart mode with both API keys set. -/
def envSmart : Env :=
  ⟨some "elevenlabs-key", some "openai-key", some "smart", none, none, none, none⟩

/-- An environment with an unrecognized MODE value and no OpenAI key. -/
def envBogusMode : Env := ⟨some "elevenlabs-key", none, some "bogus", none, none, none, none⟩

/-! ### Helper lemmas -/

theorem cacheLookup_insert (c : Cache) (k v : String) :
    cacheLookup (cacheInsert c k v) k = some v := by
  simp [cacheInsert, cacheLookup]

theorem mem_dropWhile {p : Char → Bool} {l : List Char} {c : Char}
    (h : c ∈ l.dropWhile p) : c ∈ l := by
  induction l with
  | nil => exact h
  | cons a as ih =>
    by_cases ha : p a
    · rw [List.dropWhile_cons_of_pos ha] at h
      exact List.mem_cons_of_mem a (ih h)
    · rwa [List.dropWhile_cons_of_neg ha] at h

theorem mem_dropTrailingWhile {p : Char → Bool} {l : List Char} {c : Char}
    (h : c ∈ dropTrailingWhile p l) : c ∈ l := by
  induction l with
  | nil => exact h
  | cons a as ih =>
    rw [dropTrailingWhile] at h
    rcases hrec : dropTrailingWhile p as with _ | ⟨r, rs⟩
    · rw [hrec] at h
      by_cases hp : p a <;> simp [hp] at h
      simp [h]
    · rw [hrec] at h
      rcases List.mem_cons.mp h with h1 | h2
      · simp [h1]
      · exact List.mem_cons_of_mem a (ih (hrec ▸ h2))

theorem mem_pyStrip {p : Char → Bool} {l : List Char} {c : Char}
    (h : c ∈ pyStrip p l) : c ∈ l :=
  mem_dropWhile (mem_dropTrailingWhile h)

/-- C2 counterexample: in the trace where the first iteration raises an
unexpected exception and a second iteration would be available, the loop
terminates after that one iteration with the exception re-raised out of
`run_continuous` — it does not continue to the next poll. -/
theorem run_continuous_err_propagates_cex :
    run_continuous [IterOutcome.err, IterOutcome.ok] = (1, LoopExit.propagated) := rfl

/-- C2 (amended): in continuous mode, after any number of clean iterations,
an iteration that raises an unexpected exception is logged and then
re-raised, terminating the loop — later iterations never run — while a
`KeyboardInterrupt` is absorbed and ends the loop gracefully. -/
theorem run_continuous_exit_behavior (pre rest : List IterOutcome)
    (h : ∀ o ∈ pre, o = IterOutcome.ok) :
    run_continuous (pre ++ IterOutcome.err :: rest) =
      (pre.length + 1, LoopExit.propagated) ∧
    run_continuous (pre ++ IterOutcome.interrupt :: rest) =
      (pre.length + 1, LoopExit.graceful) := by
  induction pre with
  | nil => simp [run_continuous]
  | cons a as ih =>
    have ha : a = IterOutcome.ok := h a (List.mem_cons_self a as)
    subst ha
    have hrest : ∀ o ∈ as, o = IterOutcome.ok := fun o ho => h o (List.mem_cons_of_mem _ ho)
    obtain ⟨h1, h2⟩ := ih hrest
    constructor
    · simp [run_continuous, h1]
    · simp [run_continuous, h2]

/-- Witness for `run_continuous_exit_behavior` at the concrete trace
`[ok, err]` / `[ok, interrupt]`. -/
theorem run_continuous_exit_behavior_witness :
    run_continuous [IterOutcome.ok, IterOutcome.err] = (2, LoopExit.propagated) ∧
    run_continuous [IterOutcome.ok, IterOutcome.interrupt] = (2, LoopExit.graceful) := by
  have h := run_continuous_exit_behavior [IterOutcome.ok] [] (by decide)
  simpa using h

/-- C9 counterexample: with `MODE=bogus`, the ElevenLabs key set and the
OpenAI key unset, startup validation succeeds even though the process then
runs in the generative `smart` mode (the invalid mode defaults to `smart`)
with its required text-generation credential missing. -/
theorem validate_env_vars_bogus_mode_cex :
    validate_env_vars envBogusMode = Except.ok () ∧
    effectiveMode envBogusMode = "smart" ∧
    isMissing envBogusMode.openaiApiKey = true := by
  refine ⟨rfl, by decide, rfl⟩

/-- C9 (amended): startup validation succeeds iff the ElevenLabs credential
is set and non-empty, and — whenever the raw lowercased `MODE` value
(default `smart`) is `smart` or `wizard` — the OpenAI credential is set and
non-empty.  An unrecognized `MODE` value escapes the OpenAI-credential
check even though the process then defaults to the generative `smart` mode. -/
theorem validate_env_vars_ok_iff (env : Env) :
    validate_env_vars env = Except.ok () ↔
      (isMissing env.elevenlabsApiKey = false ∧
       ((rawMode env = "smart" ∨ rawMode env = "wizard") →
         isMissing env.openaiApiKey = false)) := by
  by_cases h1 : rawMode env = "smart" ∨ rawMode env = "wizard" <;>
    by_cases h2 : isMissing env.elevenlabsApiKey <;>
      by_cases h3 : isMissing env.openaiApiKey <;>
        simp [validate_env_vars, missingVars, requiredVars, getenvVar, h1, h2, h3]

/-- Witness for `validate_env_vars_ok_iff` at the concrete environment
`envBasic`. -/
theorem validate_env_vars_ok_iff_witness :
    validate_env_vars envBasic = Except.ok () :=
  (validate_env_vars_ok_iff envBasic).mpr (by decide)

/-- C8: in basic mode `generate_announcement` returns exactly the template
`"{NowPlayingText}: {title} - {ByText} - {artist}"` built from the configured
phrase substitutions, issues no OpenAI call, and neither reads nor writes the
announcement cache; with the default phrases and track `("Song", "Artist")`
the output is exactly `"Now playing: Song - by - Artist"`. -/
theorem basic_mode_template (cfg : Config) (cache : Cache) (song artist : String)
    (gpt : GptOutcome) (h : cfg.mode = "basic") :
    ((generate_announcement cfg cache song artist gpt).announcement =
        cfg.nowPlayingText ++ ": " ++ song ++ " - " ++ cfg.byText ++ " - " ++ artist ∧
     (generate_announcement cfg cache song artist gpt).apiCalled = false ∧
     (generate_announcement cfg cache song artist gpt).cacheRead = false ∧
     (generate_announcement cfg cache song artist gpt).saveCalled = false ∧
     (generate_announcement cfg cache song artist gpt).cache = cache) ∧
    (generate_announcement (mkConfig envBasic) [] "Song" "Artist" gpt).announcement =
      "Now playing: Song - by - Artist" := by
  constructor
  · simp [generate_announcement, h, basicAnnouncement]
  · have hb : (mkConfig envBasic).mode = "basic" := by decide
    simp [generate_announcement, hb, basicAnnouncement]
    decide

/-- Witness for `basic_mode_template` on the default basic configuration. -/
theorem basic_mode_template_witness :
    (generate_announcement (mkConfig envBasic) [] "Song" "Artist" GptOutcome.exn).announcement =
      "Now playing: Song - by - Artist" :=
  (basic_mode_template (mkConfig envBasic) [] "Song" "Artist" GptOutcome.exn (by decide)).2

/-- C6: in a generative mode, on a cache miss where the OpenAI call fails
(exception, `None` content or empty content), `generate_announcement`
returns the fixed fallback `"Now playing: {title} - by - {artist}"` and
leaves the in-memory cache untouched, without invoking `_save_gpt_cache`
(so the persisted cache is untouched as well). -/
theorem gpt_failure_fallback (cfg : Config) (cache : Cache) (song artist : String)
    (gpt : GptOutcome)
    (hmode : cfg.mode = "smart" ∨ cfg.mode = "wizard")
    (hinit : cfg.openaiClientInit = true)
    (hmiss : cacheLookup cache (cacheKey song artist cfg.languageCode cfg.mode) = none)
    (hfail : gpt = GptOutcome.exn ∨ gpt = GptOutcome.ok none ∨
      gpt = GptOutcome.ok (some "")) :
    (generate_announcement cfg cache song artist gpt).announcement =
      "Now playing: " ++ song ++ " - by - " ++ artist ∧
    (generate_announcement cfg cache song artist gpt).cache = cache ∧
    (generate_announcement cfg cache song artist gpt).saveCalled = false := by
  have hb : ¬ cfg.mode = "basic" := by
    rcases hmode with h | h <;> rw [h] <;> decide
  rcases hfail with h | h | h <;> subst h <;>
    simp [generate_announcement, hb, hinit, hmiss, fallbackAnnouncement]

/-- Witness for `gpt_failure_fallback` on the smart configuration with an
empty cache and a failing OpenAI call. -/
theorem gpt_failure_fallback_witness :
    (generate_announcement (mkConfig envSmart) [] "Song" "Artist" GptOutcome.exn).announcement =
      "Now playing: Song - by - Artist" :=
  (gpt_failure_fallback (mkConfig envSmart) [] "Song" "Artist" GptOutcome.exn
    (Or.inl (by decide)) (by decide) rfl (Or.inl rfl)).1

/-- C1: in a generative mode, once a first successful generation has stored
an entry under the composite cache key, a second `generate_announcement`
call with the same `(title, artist)` (and the same configured language and
mode, which are part of the key) returns the stored string verbatim, issues
no OpenAI call whatever the collaborator would have answered, does not
invoke `_save_gpt_cache`, and leaves the cache unchanged. -/
theorem cache_hit_short_circuit (cfg : Config) (cache : Cache)
    (song artist content : String) (gpt2 : GptOutcome)
    (hmode : cfg.mode = "smart" ∨ cfg.mode = "wizard")
    (hinit : cfg.openaiClientInit = true)
    (hmiss : cacheLookup cache (cacheKey song artist cfg.languageCode cfg.mode) = none)
    (hc : content ≠ "") :
    (generate_announcement cfg
        (generate_announcement cfg cache song artist (GptOutcome.ok (some content))).cache
        song artist gpt2).announcement =
      (generate_announcement cfg cache song artist (GptOutcome.ok (some content))).announcement ∧
    (generate_announcement cfg
        (generate_announcement cfg cache song artist (GptOutcome.ok (some content))).cache
        song artist gpt2).apiCalled = false ∧
    (generate_announcement cfg
        (generate_announcement cfg cache song artist (GptOutcome.ok (some content))).cache
        song artist gpt2).saveCalled = false ∧
    (generate_announcement cfg
        (generate_announcement cfg cache song artist (GptOutcome.ok (some content))).cache
        song artist gpt2).cache =
      (generate_announcement cfg cache song artist (GptOutcome.ok (some content))).cache := by
  have hb : ¬ cfg.mode = "basic" := by
    rcases hmode with h | h <;> rw [h] <;> decide
  simp [generate_announcement, hb, hinit, hmiss, hc, cacheLookup_insert]

/-- Witness for `cache_hit_short_circuit` on the smart configuration,
track `("Song", "Artist")`, first response `"Hi there"`, second call facing
an OpenAI outage. -/
theorem cache_hit_short_circuit_witness :
    (generate_announcement (mkConfig envSmart)
        (generate_announcement (mkConfig envSmart) [] "Song" "Artist"
          (GptOutcome.ok (some "Hi there"))).cache
        "Song" "Artist" GptOutcome.exn).announcement =
      (generate_announcement (mkConfig envSmart) [] "Song" "Artist"
        (GptOutcome.ok (some "Hi there"))).announcement :=
  (cache_hit_short_circuit (mkConfig envSmart) [] "Song" "Artist" "Hi there"
    GptOutcome.exn (Or.inl (by decide)) (by decide) rfl (by decide)).1

/-- C7: when a new track's deterministic output file already exists,
`process_current_track` never issues the ElevenLabs call, hands the existing
path to `_play_audio`, and returns `true`.  The statement quantifies over the
announcement cache and the OpenAI outcome, so this file-level layer is
independent of the announcement text cache. -/
theorem file_cache_short_circuit (cfg : Config) (lastTrack : Option String)
    (cache : Cache) (o : ProcOracle) (song artist : String)
    (ht : o.track = some (song, artist))
    (hnew : some (trackIdentifier song artist) ≠ lastTrack)
    (hex : o.fileExists = true) :
    (process_current_track cfg lastTrack cache o).synthCalled = false ∧
    (process_current_track cfg lastTrack cache o).played =
      some (cfg.outputDir ++ "/" ++ mkFilename cfg artist song) ∧
    (process_current_track cfg lastTrack cache o).processed = true := by
  simp [process_current_track, ht, hnew, hex]

/-- Witness for `file_cache_short_circuit`: smart configuration, fresh track
`("Song", "Artist")`, output file already present. -/
theorem file_cache_short_circuit_witness :
    (process_current_track (mkConfig envSmart) none []
        ⟨some ("Song", "Artist"), GptOutcome.exn, true, none⟩).synthCalled = false ∧
    (process_current_track (mkConfig envSmart) none []
        ⟨some ("Song", "Artist"), GptOutcome.exn, true, none⟩).played =
      some ((mkConfig envSmart).outputDir ++ "/"
        ++ mkFilename (mkConfig envSmart) "Artist" "Song") ∧
    (process_current_track (mkConfig envSmart) none []
        ⟨some ("Song", "Artist"), GptOutcome.exn, true, none⟩).processed = true :=
  file_cache_short_circuit (mkConfig envSmart) none []
    ⟨some ("Song", "Artist"), GptOutcome.exn, true, none⟩ "Song" "Artist"
    rfl (by decide) rfl

/-- C5: one `process_current_track` step (i) is a no-op returning `false`
when no track is detected, (ii) returns `false` and keeps `last_track` when
the track is unchanged, and (iii) on a new track records the new identity as
`last_track` whatever the synthesis outcome — so a synthesis failure is
never retried — and returns `true` exactly when the output file already
existed or the ElevenLabs call produced non-empty audio.  (`last_track` is
assigned before the generator/synthesizer run in the source; in this pure
model that ordering shows up as the new identity being recorded even in the
failure outcome.) -/
theorem process_step_state_and_return (cfg : Config) (lastTrack : Option String)
    (cache : Cache) (o : ProcOracle) :
    (o.track = none →
       process_current_track cfg lastTrack cache o =
         ⟨lastTrack, cache, false, false, false, false, none⟩) ∧
    (∀ song artist, o.track = some (song, artist) →
       some (trackIdentifier song artist) = lastTrack →
       process_current_track cfg lastTrack cache o =
         ⟨lastTrack, cache, false, false, false, false, none⟩) ∧
    (∀ song artist, o.track = some (song, artist) →
       some (trackIdentifier song artist) ≠ lastTrack →
       (process_current_track cfg lastTrack cache o).lastTrack =
         some (trackIdentifier song artist) ∧
       (process_current_track cfg lastTrack cache o).processed =
         (o.fileExists || synthSucceeds o.audio)) := by
  refine ⟨?_, ?_, ?_⟩
  · intro h
    simp [process_current_track, h]
  · intro song artist ht hsame
    simp [process_current_track, ht, hsame]
  · intro song artist ht hnew
    rcases hfe : o.fileExists with _ | _
    · rcases ha : o.audio with _ | ⟨data⟩
      · simp [process_current_track, ht, hnew, hfe, ha, generate_speech, synthSucceeds]
      · by_cases hd : data = [] <;>
          simp [process_current_track, ht, hnew, hfe, ha, hd, generate_speech, synthSucceeds]
    · simp [process_current_track, ht, hnew, hfe]

/-- Witness for `process_step_state_and_return`: a new track whose synthesis
fails (empty audio) is still recorded as `last_track`, and the step returns
`false`. -/
theorem process_step_state_and_return_witness :
    (process_current_track (mkConfig envSmart) none []
        ⟨some ("Song", "Artist"), GptOutcome.exn, false, some []⟩).lastTrack =
      some (trackIdentifier "Song" "Artist") ∧
    (process_current_track (mkConfig envSmart) none []
        ⟨some ("Song", "Artist"), GptOutcome.exn, false, some []⟩).processed =
      (false || synthSucceeds (some [])) :=
  (process_step_state_and_return (mkConfig envSmart) none []
      ⟨some ("Song", "Artist"), GptOutcome.exn, false, some []⟩).2.2
    "Song" "Artist" rfl (by decide)

/-- C10: the sanitizer is not injective.  The distinct titles `"Hello!"` and
`"Hello?"` sanitize to the same string, so under the same mode, language and
artist both tracks map to the same output path; processing the second track
while the first track's file is present (same path, so `os.path.exists` is
true) skips synthesis, plays the first track's file, and reports the track
as processed. -/
theorem sanitize_collision_reuses_file :
    ("Hello!" : String) ≠ "Hello?" ∧
    sanitize_filename "Hello!" = sanitize_filename "Hello?" ∧
    mkFilename (mkConfig envSmart) "Queen" "Hello!" =
      mkFilename (mkConfig envSmart) "Queen" "Hello?" ∧
    ((process_current_track (mkConfig envSmart)
        (some (trackIdentifier "Hello!" "Queen")) []
        ⟨some ("Hello?", "Queen"), GptOutcome.exn, true, none⟩).synthCalled = false ∧
     (process_current_track (mkConfig envSmart)
        (some (trackIdentifier "Hello!" "Queen")) []
        ⟨some ("Hello?", "Queen"), GptOutcome.exn, true, none⟩).played =
       some ((mkConfig envSmart).outputDir ++ "/"
         ++ mkFilename (mkConfig envSmart) "Queen" "Hello!") ∧
     (process_current_track (mkConfig envSmart)
        (some (trackIdentifier "Hello!" "Queen")) []
        ⟨some ("Hello?", "Queen"), GptOutcome.exn, true, none⟩).processed = true) := by
  exact ⟨by decide, by decide, by decide, by decide, by decide, by decide⟩

theorem pipe_not_mem_splitOnce_fst (l : List Char) : ¬ '|' ∈ (splitOnce l).1 := by
  induction l with
  | nil => simp [splitOnce]
  | cons c cs ih =>
    by_cases hc : c = '|'
    · simp [splitOnce, hc]
    · simp only [splitOnce, if_neg hc, List.mem_cons]
      push_neg
      exact ⟨fun h => hc h.symm, ih⟩

theorem append_pipe_inj (l1 : List Char) : ∀ (l2 m1 m2 : List Char),
    ¬ '|' ∈ l1 → ¬ '|' ∈ l2 →
    l1 ++ '|' :: m1 = l2 ++ '|' :: m2 → l1 = l2 ∧ m1 = m2 := by
  induction l1 with
  | nil =>
    intro l2 m1 m2 _ h2 h
    cases l2 with
    | nil =>
      simp only [List.nil_append] at h
      exact ⟨rfl, by injection h⟩
    | cons c cs =>
      simp only [List.nil_append, List.cons_append] at h
      injection h with hc _
      exact absurd (by rw [← hc]; exact List.mem_cons_self _ _) h2
  | cons b bs ih =>
    intro l2 m1 m2 h1 h2 h
    cases l2 with
    | nil =>
      simp only [List.cons_append, List.nil_append] at h
      injection h with hb _
      exact absurd (by rw [hb]; exact List.mem_cons_self _ _) h1
    | cons c cs =>
      simp only [List.cons_append] at h
      injection h with hbc ht
      subst hbc
      have h1' : ¬ '|' ∈ bs := fun hm => h1 (List.mem_cons_of_mem _ hm)
      have h2' : ¬ '|' ∈ cs := fun hm => h2 (List.mem_cons_of_mem _ hm)
      obtain ⟨e1, e2⟩ := ih cs m1 m2 h1' h2' ht
      exact ⟨by rw [e1], e2⟩

/-- C4: the change detector compares the derived identities
`title ++ "|" ++ artist`.  Every snapshot produced by `get_current_track`
has a `'|'`-free title (the AppleScript output is split at its first
`'|'`), and for such snapshots two identities coincide exactly when both
the titles and the artists coincide — so any change of title or artist is
detected as a new track. -/
theorem same_track_iff_fields_eq :
    (∀ result song artist, get_current_track result = some (song, artist) →
      ¬ '|' ∈ song.data) ∧
    (∀ song1 artist1 song2 artist2 : String,
      ¬ '|' ∈ song1.data → ¬ '|' ∈ song2.data →
      (trackIdentifier song1 artist1 = trackIdentifier song2 artist2 ↔
        (song1 = song2 ∧ artist1 = artist2))) := by
  constructor
  · intro result song artist h
    rcases result with _ | ⟨rc, stdout⟩
    · simp [get_current_track] at h
    · simp only [get_current_track] at h
      split_ifs at h with hok hpipe
      simp only [Option.some.injEq, Prod.mk.injEq] at h
      intro hmem
      rw [← h.1] at hmem
      exact pipe_not_mem_splitOnce_fst _ (mem_pyStrip hmem)
  · intro song1 artist1 song2 artist2 h1 h2
    constructor
    · intro h
      have hpipe : ("|" : String).data = ['|'] := rfl
      have hd : song1.data ++ '|' :: artist1.data = song2.data ++ '|' :: artist2.data := by
        have hdata := congrArg String.data h
        simpa [trackIdentifier, String.data_append, hpipe] using hdata
      obtain ⟨e1, e2⟩ := append_pipe_inj song1.data song2.data artist1.data artist2.data h1 h2 hd
      exact ⟨String.ext e1, String.ext e2⟩
    · rintro ⟨rfl, rfl⟩
      rfl

/-- Witness for `same_track_iff_fields_eq`: the identical snapshot is "the
same track", instantiated at `("Song", "Artist")` against `("Song", "Other")`. -/
theorem same_track_iff_fields_eq_witness :
    trackIdentifier "Song" "Artist" = trackIdentifier "Song" "Other" ↔
      (("Song" : String) = "Song" ∧ ("Artist" : String) = "Other") :=
  same_track_iff_fields_eq.2 "Song" "Artist" "Song" "Other" (by decide) (by decide)

/-! ### Lemmas on the sanitizer's building blocks -/

theorem mem_collapseRuns {p : Char → Bool} {r : Char} {c : Char} :
    ∀ {b : Bool} {l : List Char}, c ∈ collapseRuns p r b l →
      c = r ∨ (c ∈ l ∧ p c = false) := by
  intro b l
  induction l generalizing b with
  | nil => intro h; exact absurd h (List.not_mem_nil c)
  | cons a as ih =>
    intro h
    by_cases hpa : p a = true
    · rcases b with _ | _
      · rw [collapseRuns, if_pos hpa] at h
        simp only [Bool.false_eq_true, if_false] at h
        rcases List.mem_cons.mp h with hc | hc
        · exact Or.inl hc
        · rcases ih hc with h1 | ⟨h2, h3⟩
          · exact Or.inl h1
          · exact Or.inr ⟨List.mem_cons_of_mem a h2, h3⟩
      · rw [collapseRuns, if_pos hpa, if_pos rfl] at h
        rcases ih h with h1 | ⟨h2, h3⟩
        · exact Or.inl h1
        · exact Or.inr ⟨List.mem_cons_of_mem a h2, h3⟩
    · rw [collapseRuns, if_neg hpa] at h
      rcases List.mem_cons.mp h with hc | hc
      · subst hc
        exact Or.inr ⟨List.mem_cons_self c as, Bool.eq_false_iff.mpr hpa⟩
      · rcases ih hc with h1 | ⟨h2, h3⟩
        · exact Or.inl h1
        · exact Or.inr ⟨List.mem_cons_of_mem a h2, h3⟩

theorem noAdjU_tail {a : Char} {l : List Char} (h : noAdjU (a :: l) = true) :
    noAdjU l = true := by
  cases l with
  | nil => rfl
  | cons b bs => exact (Bool.and_eq_true_iff.mp h).2

theorem noAdjU_cons_of_ne {a : Char} (l : List Char) (ha : ¬ a = '_')
    (h : noAdjU l = true) : noAdjU (a :: l) = true := by
  cases l with
  | nil => rfl
  | cons b bs =>
    rw [noAdjU, Bool.and_eq_true]
    refine ⟨?_, h⟩
    have : (a == '_') = false := beq_false_of_ne ha
    simp [this]

/-- The underscore-collapsing pass yields no adjacent underscores, and when
entered inside a run it never starts with an underscore. -/
theorem collapseRuns_underscore_noAdjU (l : List Char) :
    ∀ b : Bool,
      noAdjU (collapseRuns (fun c => c = '_') '_' b l) = true ∧
      (b = true → ∀ cs, collapseRuns (fun c => c = '_') '_' b l ≠ '_' :: cs) := by
  induction l with
  | nil =>
    intro b
    exact ⟨rfl, fun _ cs h => by simp [collapseRuns] at h⟩
  | cons a as ih =>
    intro b
    by_cases ha : a = '_'
    · rcases b with _ | _
      · rw [show collapseRuns (fun c => c = '_') '_' false (a :: as) =
            '_' :: collapseRuns (fun c => c = '_') '_' true as by
            rw [collapseRuns, if_pos (by simpa using ha)]
            simp]
        constructor
        · rcases hrec : collapseRuns (fun c => c = '_') '_' true as with _ | ⟨x, xs⟩
          · rfl
          · have hx : ¬ x = '_' := by
              intro hx
              exact ((ih true).2 rfl xs) (by rw [hrec, hx])
            rw [noAdjU, Bool.and_eq_true]
            refine ⟨by simp [beq_false_of_ne hx], ?_⟩
            rw [← hrec]
            exact (ih true).1
        · intro h; exact absurd h (by simp)
      · rw [show collapseRuns (fun c => c = '_') '_' true (a :: as) =
            collapseRuns (fun c => c = '_') '_' true as by
            rw [collapseRuns, if_pos (by simpa using ha), if_pos rfl]]
        exact ⟨(ih true).1, fun _ => (ih true).2 rfl⟩
    · rw [show collapseRuns (fun c => c = '_') '_' b (a :: as) =
          a :: collapseRuns (fun c => c = '_') '_' false as by
          rw [collapseRuns, if_neg (by simpa using ha)]]
      refine ⟨noAdjU_cons_of_ne _ ha (ih false).1, ?_⟩
      intro _ cs h
      simp only [List.cons.injEq] at h
      exact ha h.1

theorem noAdjU_dropWhile {p : Char → Bool} {l : List Char}
    (h : noAdjU l = true) : noAdjU (l.dropWhile p) = true := by
  induction l with
  | nil => rfl
  | cons a as ih =>
    by_cases hpa : p a
    · rw [List.dropWhile_cons_of_pos hpa]
      exact ih (noAdjU_tail h)
    · rwa [List.dropWhile_cons_of_neg hpa]

theorem noAdjU_take {l : List Char} (h : noAdjU l = true) :
    ∀ n : Nat, noAdjU (l.take n) = true := by
  induction l with
  | nil => intro n; simp [noAdjU]
  | cons a as ih =>
    intro n
    cases n with
    | zero => rfl
    | succ m =>
      rw [List.take_succ_cons]
      cases as with
      | nil => simp [noAdjU]
      | cons b bs =>
        cases m with
        | zero => rfl
        | succ k =>
          rw [List.take_succ_cons, noAdjU, Bool.and_eq_true]
          have hpair := (Bool.and_eq_true_iff.mp h).1
          refine ⟨hpair, ?_⟩
          have := ih (noAdjU_tail h) (k + 1)
          rwa [List.take_succ_cons] at this

theorem dropTrailingWhile_eq_take (p : Char → Bool) (l : List Char) :
    ∃ n : Nat, dropTrailingWhile p l = l.take n := by
  induction l with
  | nil => exact ⟨0, rfl⟩
  | cons a as ih =>
    obtain ⟨n, hn⟩ := ih
    rcases hrec : dropTrailingWhile p as with _ | ⟨r, rs⟩
    · by_cases hpa : p a
      · refine ⟨0, ?_⟩
        rw [dropTrailingWhile, hrec, if_pos hpa]
        rfl
      · refine ⟨1, ?_⟩
        rw [dropTrailingWhile, hrec, if_neg hpa]
        rfl
    · refine ⟨n + 1, ?_⟩
      rw [dropTrailingWhile, hrec, List.take_succ_cons, ← hn, hrec]

theorem noAdjU_dropTrailingWhile {p : Char → Bool} {l : List Char}
    (h : noAdjU l = true) : noAdjU (dropTrailingWhile p l) = true := by
  obtain ⟨n, hn⟩ := dropTrailingWhile_eq_take p l
  rw [hn]
  exact noAdjU_take h n

theorem dropWhile_head_not {p : Char → Bool} :
    ∀ {l : List Char} {c : Char} {cs : List Char},
      l.dropWhile p = c :: cs → p c = false := by
  intro l
  induction l with
  | nil => intro c cs h; simp at h
  | cons a as ih =>
    intro c cs h
    by_cases hpa : p a
    · rw [List.dropWhile_cons_of_pos hpa] at h
      exact ih h
    · rw [List.dropWhile_cons_of_neg hpa] at h
      injection h with h1 _
      rw [← h1]
      exact Bool.eq_false_iff.mpr hpa

theorem dropTrailingWhile_head {p : Char → Bool} {l : List Char} {c : Char}
    {cs : List Char} (h : dropTrailingWhile p l = c :: cs) :
    ∃ cs', l = c :: cs' := by
  obtain ⟨n, hn⟩ := dropTrailingWhile_eq_take p l
  rw [hn] at h
  cases l with
  | nil => simp at h
  | cons a as =>
    cases n with
    | zero => simp at h
    | succ m =>
      rw [List.take_succ_cons] at h
      injection h with h1 _
      exact ⟨as, by rw [h1]⟩

theorem dropTrailingWhile_getLast {p : Char → Bool} :
    ∀ {l : List Char} {c : Char},
      (dropTrailingWhile p l).getLast? = some c → p c = false := by
  intro l
  induction l with
  | nil => intro c h; simp [dropTrailingWhile] at h
  | cons a as ih =>
    intro c h
    rw [dropTrailingWhile] at h
    rcases hrec : dropTrailingWhile p as with _ | ⟨r, rs⟩
    · rw [hrec] at h
      by_cases hpa : p a
      · rw [if_pos hpa] at h
        simp at h
      · rw [if_neg hpa] at h
        simp only [List.getLast?_singleton, Option.some.injEq] at h
        rw [← h]
        exact Bool.eq_false_iff.mpr hpa
    · rw [hrec] at h
      rw [List.getLast?_cons_cons] at h
      exact ih (by rw [hrec]; exact h)

theorem collapseRuns_id {p : Char → Bool} {r : Char} {l : List Char}
    (h : ∀ c ∈ l, p c = false) : ∀ b : Bool, collapseRuns p r b l = l := by
  induction l with
  | nil => intro b; rfl
  | cons a as ih =>
    intro b
    have hpa : ¬ p a = true := by
      rw [h a (List.mem_cons_self a as)]
      exact Bool.false_ne_true
    rw [collapseRuns, if_neg hpa]
    rw [ih (fun c hc => h c (List.mem_cons_of_mem a hc)) false]

theorem dropWhile_id {p : Char → Bool} {l : List Char}
    (h : ∀ c ∈ l, p c = false) : l.dropWhile p = l := by
  cases l with
  | nil => rfl
  | cons a as =>
    exact List.dropWhile_cons_of_neg (by
      rw [h a (List.mem_cons_self a as)]
      exact Bool.false_ne_true)

theorem dropTrailingWhile_id {p : Char → Bool} {l : List Char}
    (h : ∀ c ∈ l, p c = false) : dropTrailingWhile p l = l := by
  induction l with
  | nil => rfl
  | cons a as ih =>
    have hrec : dropTrailingWhile p as = as :=
      ih (fun c hc => h c (List.mem_cons_of_mem a hc))
    rw [dropTrailingWhile, hrec]
    cases as with
    | nil =>
      rw [if_neg (by
        rw [h a (List.mem_cons_self a [])]
        exact Bool.false_ne_true)]
    | cons b bs => rfl

theorem isSpaceChar_eq_true {c : Char} (h : isSpaceChar c = true) :
    c = ' ' ∨ c = '\t' ∨ c = '\n' ∨ c = '\r' ∨ c = '\x0b' ∨ c = '\x0c' := by
  simp only [isSpaceChar, Bool.or_eq_true, decide_eq_true_eq] at h
  tauto

theorem alphanum_not_space {c : Char} (ha : c.isAlphanum = true) :
    isSpaceChar c = false := by
  cases hb : isSpaceChar c with
  | false => rfl
  | true =>
    rcases isSpaceChar_eq_true hb with h | h | h | h | h | h <;> subst h <;>
      exact absurd ha (by decide)

/-- C3 counterexample: the sanitizer described by the claim
(`sanitizeSpecClaim`) differs from the code's `_sanitize_filename`.  The
code also collapses runs of literal underscores (`"a__b"` becomes `"a_b"`,
not the claimed `"a__b"`), and keeps every whitespace character as a run
separator instead of deleting non-space whitespace (`"a\tb"` becomes
`"a_b"`, not the claimed `"ab"`). -/
theorem sanitize_filename_spec_claim_cex :
    sanitize_filename "a__b" ≠ sanitizeSpecClaim "a__b" ∧
    sanitize_filename "a__b" = "a_b" ∧ sanitizeSpecClaim "a__b" = "a__b" ∧
    sanitize_filename "a\tb" = "a_b" ∧ sanitizeSpecClaim "a\tb" = "ab" :=
  ⟨by decide, by decide, by decide, by decide, by decide⟩

/-- C3 (amended): the sanitizer keeps word characters, whitespace and
hyphens, removing everything else; collapses every whitespace run to a
single underscore; additionally collapses every underscore run to a single
underscore; and strips leading and trailing underscores.  Consequently the
output (i) contains only word characters and hyphens and no whitespace,
(ii) never contains two adjacent underscores, (iii) never starts and
(iv) never ends with an underscore, (v) the sanitizer is the identity on
strings of letters, digits and hyphens, and (vi) the output filename is a
deterministic function of `(mode, languageCode, sanitize(artist),
sanitize(title))`. -/
theorem sanitize_filename_characterization :
    (∀ s : String, ∀ c ∈ (sanitize_filename s).data,
      (isWordChar c = true ∨ c = '-') ∧ isSpaceChar c = false) ∧
    (∀ s : String, noAdjU (sanitize_filename s).data = true) ∧
    (∀ s : String, ∀ c cs, (sanitize_filename s).data = c :: cs → ¬ c = '_') ∧
    (∀ s : String, ∀ c, (sanitize_filename s).data.getLast? = some c → ¬ c = '_') ∧
    (∀ s : String, (∀ c ∈ s.data, c.isAlphanum = true ∨ c = '-') →
      sanitize_filename s = s) ∧
    (∀ cfg : Config, ∀ a1 t1 a2 t2 : String,
      sanitize_filename a1 = sanitize_filename a2 →
      sanitize_filename t1 = sanitize_filename t2 →
      mkFilename cfg a1 t1 = mkFilename cfg a2 t2) := by
  have hdata : ∀ s : String, (sanitize_filename s).data =
      pyStrip (fun c => c = '_')
        (collapseRuns (fun c => c = '_') '_' false
          (collapseRuns isSpaceChar '_' false (s.data.filter keepChar))) :=
    fun s => rfl
  refine ⟨?_, ?_, ?_, ?_, ?_, ?_⟩
  · intro s c hc
    rw [hdata] at hc
    have h3 := mem_pyStrip hc
    rcases mem_collapseRuns h3 with h | ⟨h2m, _⟩
    · subst h
      exact ⟨Or.inl (by decide), by decide⟩
    · rcases mem_collapseRuns h2m with h | ⟨h1m, h1s⟩
      · subst h
        exact ⟨Or.inl (by decide), by decide⟩
      · have hk := List.of_mem_filter h1m
        refine ⟨?_, h1s⟩
        simp only [keepChar, Bool.or_eq_true, decide_eq_true_eq] at hk
        rcases hk with (hw | hs) | hd
        · exact Or.inl hw
        · rw [h1s] at hs
          exact absurd hs Bool.false_ne_true
        · exact Or.inr hd
  · intro s
    rw [hdata]
    exact noAdjU_dropTrailingWhile
      (noAdjU_dropWhile (collapseRuns_underscore_noAdjU _ false).1)
  · intro s c cs h
    rw [hdata] at h
    obtain ⟨cs', hw⟩ := dropTrailingWhile_head h
    exact of_decide_eq_false (dropWhile_head_not hw)
  · intro s c h
    rw [hdata] at h
    exact of_decide_eq_false (dropTrailingWhile_getLast h)
  · intro s h
    have hnospace : ∀ c ∈ s.data, isSpaceChar c = false := by
      intro c hc
      rcases h c hc with ha | hd
      · exact alphanum_not_space ha
      · subst hd; decide
    have hnou : ∀ c ∈ s.data, decide (c = '_') = false := by
      intro c hc
      rcases h c hc with ha | hd
      · refine decide_eq_false ?_
        intro he
        exact absurd (he ▸ ha) (by decide)
      · subst hd; decide
    have h1 : s.data.filter keepChar = s.data := by
      rw [List.filter_eq_self]
      intro c hc
      rcases h c hc with ha | hd
      · simp [keepChar, isWordChar, ha]
      · subst hd; decide
    show String.mk
        (pyStrip (fun c => c = '_')
          (collapseRuns (fun c => c = '_') '_' false
            (collapseRuns isSpaceChar '_' false (s.data.filter keepChar)))) = s
    rw [h1, collapseRuns_id hnospace false, collapseRuns_id hnou false]
    show String.mk
        (dropTrailingWhile (fun c => c = '_')
          (List.dropWhile (fun c => c = '_') s.data)) = s
    rw [dropWhile_id hnou, dropTrailingWhile_id hnou]
  · intro cfg a1 t1 a2 t2 ha ht
    simp only [mkFilename, ha, ht]

/-- Witness for `sanitize_filename_characterization`: the sanitizer is the
identity on `"ab-c"`, and the head of `sanitize_filename "_a"` is not an
underscore. -/
theorem sanitize_filename_characterization_witness :
    sanitize_filename "ab-c" = "ab-c" ∧ ¬ ('a' : Char) = '_' :=
  ⟨sanitize_filename_characterization.2.2.2.2.1 "ab-c" (by decide),
   sanitize_filename_characterization.2.2.1 "_a" 'a' [] (by decide)⟩

end Tysa
